import Mathlib

/-!
Verification of the ip_checker subnet-arithmetic core.

Strings are modelled as `List Char`; the Rust `str::split('.')` is modelled by
`splitChar`, `u16::from_str` / `u8::from_str` by `parseU16` / `parseU8`, and
`format!("{}", n)` for naturals by `natRepr`.  Machine integers (`u8`, `u32`)
are modelled as `Nat` with explicit `% 2^w` where the Rust type forces a
reduction; arithmetic whose overflow panics in the source is modelled by
`Option` (`none` = panic), as is every `unwrap` of a fallible constructor.
-/

namespace IpChecker

/-- Decidable equality of `Except` results, used to evaluate the embedded
constructors on concrete inputs. -/
instance {ε α : Type} [DecidableEq ε] [DecidableEq α] : DecidableEq (Except ε α) := fun x y =>
  match x, y with
  | Except.ok a, Except.ok b =>
    if h : a = b then Decidable.isTrue (by rw [h])
    else Decidable.isFalse (by intro hc; cases hc; exact h rfl)
  | Except.error a, Except.error b =>
    if h : a = b then Decidable.isTrue (by rw [h])
    else Decidable.isFalse (by intro hc; cases hc; exact h rfl)
  | Except.ok _, Except.error _ => Decidable.isFalse (by intro hc; cases hc)
  | Except.error _, Except.ok _ => Decidable.isFalse (by intro hc; cases hc)

/-- Models Rust `str::split(c)`: greedy split on a separator character,
keeping empty segments ( `""` splits to `[""]`, a trailing separator yields a
trailing empty segment). -/
def splitChar (c : Char) : List Char → List (List Char)
  | [] => [[]]
  | x :: xs =>
    if x = c then [] :: splitChar c xs
    else
      match splitChar c xs with
      | [] => [[x]]
      | r :: rs => (x :: r) :: rs

/-- ASCII decimal digit test, as used by Rust integer parsing. -/
def isDigitChar (c : Char) : Bool := decide (48 ≤ c.toNat) && decide (c.toNat ≤ 57)

/-- Value of a list of decimal digit characters, most significant first. -/
def digitsVal (l : List Char) : Nat := l.foldl (fun acc c => acc * 10 + (c.toNat - 48)) 0

/-- Models Rust `<uN as FromStr>::from_str`: an optional leading plus sign,
then one or more ASCII digits; values above the type bound are an overflow
error. -/
def parseNatBounded (bound : Nat) (l : List Char) : Option Nat :=
  let l2 := match l with
            | '+' :: rest => rest
            | other => other
  if l2.isEmpty then none
  else if l2.all isDigitChar then
    if digitsVal l2 ≤ bound then some (digitsVal l2) else none
  else none

/-- Rust `octet.parse::<u16>()`. -/
def parseU16 (l : List Char) : Option Nat := parseNatBounded 65535 l

/-- Rust `octet.parse::<u8>()`. -/
def parseU8 (l : List Char) : Option Nat := parseNatBounded 255 l

/-- Rust `format!("{}", n)` for an unsigned integer value. -/
def natRepr (n : Nat) : List Char := (Nat.repr n).data

/-- The reason string `format!("'{}' is not a valid number", octet)`. -/
def invalidReason (o : List Char) : List Char :=
  "\x27".data ++ o ++ "\x27 is not a valid number".data

/-! ## ip_address.rs -/

/-- Error type of `IpAddress` (ip_address.rs). -/
inductive IpAddressError where
  | invalidOctetCount : Nat → IpAddressError
  | invalidOctet : Nat → List Char → IpAddressError
  | octetOutOfRange : Nat → IpAddressError
  | emptyAddress : IpAddressError
deriving DecidableEq

/-- The per-octet validation loop of `IpAddress::try_new`; `i` counts octets
already checked, positions reported are 1-based. -/
def IpAddress.checkFrom (i : Nat) : List (List Char) → Option IpAddressError
  | [] => none
  | o :: rest =>
    match parseU16 o with
    | some num =>
      if 255 < num then some (IpAddressError.octetOutOfRange (i + 1))
      else if num < 1 then some (IpAddressError.octetOutOfRange (i + 1))
      else IpAddress.checkFrom (i + 1) rest
    | none => some (IpAddressError.invalidOctet (i + 1) (invalidReason o))

/-- `IpAddress::try_new` (ip_address.rs, lines 34-64): empty check, octet
count check, then the per-octet range check; on success the raw string is
stored unchanged. -/
def IpAddress.try_new (ip : List Char) : Except IpAddressError (List Char) :=
  if ip.isEmpty then Except.error IpAddressError.emptyAddress
  else
    let octets := splitChar '.' ip
    if octets.length ≠ 4 then Except.error (IpAddressError.invalidOctetCount octets.length)
    else
      match IpAddress.checkFrom 0 octets with
      | some e => Except.error e
      | none => Except.ok ip

/-! ## subnet_mask.rs -/

/-- Error type of `SubnetMask` (subnet_mask.rs). -/
inductive SubnetMaskError where
  | invalidOctetCount : Nat → SubnetMaskError
  | invalidOctet : Nat → List Char → SubnetMaskError
  | invalidMaskPattern : SubnetMaskError
  | invalidOctetValue : Nat → SubnetMaskError
  | emptyMask : SubnetMaskError
deriving DecidableEq

/-- The `valid_values` array of `SubnetMask::try_new`. -/
def validValues : List Nat := [0, 128, 192, 224, 240, 248, 252, 254, 255]

/-- The per-octet loop of `SubnetMask::try_new`: membership in
`validValues`, then the non-increasing check against the previous octet
(initially 255). -/
def SubnetMask.checkFrom (i : Nat) (previous_octet : Nat) :
    List (List Char) → Option SubnetMaskError
  | [] => none
  | o :: rest =>
    match parseU8 o with
    | some num =>
      if ¬ (validValues.contains num) then some (SubnetMaskError.invalidOctetValue (i + 1))
      else if previous_octet < num then some SubnetMaskError.invalidMaskPattern
      else SubnetMask.checkFrom (i + 1) num rest
    | none => some (SubnetMaskError.invalidOctet (i + 1) (invalidReason o))

/-- `SubnetMask::try_new` (subnet_mask.rs, lines 36-73). -/
def SubnetMask.try_new (mask : List Char) : Except SubnetMaskError (List Char) :=
  if mask.isEmpty then Except.error SubnetMaskError.emptyMask
  else
    let octets := splitChar '.' mask
    if octets.length ≠ 4 then Except.error (SubnetMaskError.invalidOctetCount octets.length)
    else
      match SubnetMask.checkFrom 0 255 octets with
      | some e => Except.error e
      | none => Except.ok mask

/-- `u8::count_ones` for a byte value. -/
def countOnes8 (n : Nat) : Nat :=
  n / 128 % 2 + n / 64 % 2 + n / 32 % 2 + n / 16 % 2 + n / 8 % 2 + n / 4 % 2 + n / 2 % 2 + n % 2

/-- `SubnetMask::to_prefix` (subnet_mask.rs, lines 79-86): total popcount of
the four octets.  The Rust `unwrap` on octet parsing panics on a malformed
octet; that case (modelled with a 0 fallback) is unreachable for masks built
by the validating constructor, which is the only way the source obtains a
`SubnetMask`. -/
def SubnetMask.toPrefix (mask : List Char) : Nat :=
  ((splitChar '.' mask).map (fun o => countOnes8 ((parseU8 o).getD 0))).foldl
    (fun a b => a + b) 0

/-! ## prefix.rs -/

/-- Error type of `Prefix` (prefix.rs). -/
inductive PrefixError where
  | invalidLength : Nat → PrefixError
  | parseError : List Char → PrefixError
deriving DecidableEq

/-- `Prefix::new` (prefix.rs, lines 26-31). -/
def Prefix.new (p : Nat) : Except PrefixError Nat :=
  if p < 1 ∨ 32 < p then Except.error (PrefixError.invalidLength p) else Except.ok p

/-- `u32::MAX`, the value of `!0u32`. -/
def u32max : Nat := 4294967295

/-- The dotted rendering `format!("{}.{}.{}.{}", (v >> 24) & 0xFF, ...)`
shared by `to_subnet_mask`, `NetworkAddress::from_u32` and
`IpCalculator::u32_to_ip_string`. -/
def u32_to_ip_string (value : Nat) : List Char :=
  natRepr (value >>> 24 &&& 255) ++ '.' ::
  (natRepr (value >>> 16 &&& 255) ++ '.' ::
  (natRepr (value >>> 8 &&& 255) ++ '.' ::
  natRepr (value &&& 255)))

/-- `Prefix::to_subnet_mask` (prefix.rs, lines 37-47): renders
`!0u32 << (32 - n)` as a dotted string and passes it through
`SubnetMask::new`, whose inner `unwrap` panic is modelled by `Option`. -/
def Prefix.toSubnetMask (p : Nat) : Option (List Char) :=
  let mask_value := (u32max <<< (32 - p)) % 4294967296
  (SubnetMask.try_new (u32_to_ip_string mask_value)).toOption

/-- The eight bits of a byte, most significant first, as produced by
`format!("{:08b}", num)` (true = the character `1`). -/
def bits8 (n : Nat) : List Bool :=
  [decide (n / 128 % 2 = 1), decide (n / 64 % 2 = 1), decide (n / 32 % 2 = 1),
   decide (n / 16 % 2 = 1), decide (n / 8 % 2 = 1), decide (n / 4 % 2 = 1),
   decide (n / 2 % 2 = 1), decide (n % 2 = 1)]

/-- The bit walk of `Prefix::from_subnet_mask`: counts a leading run of ones
and rejects a one that follows a zero. -/
def Prefix.countConsecutive : List Bool → Nat → Bool → Except PrefixError Nat
  | [], count, _ => Prefix.new count
  | true :: rest, count, consecutive =>
    if consecutive then Prefix.countConsecutive rest (count + 1) true
    else Except.error (PrefixError.parseError
      "Invalid subnet mask: non-consecutive 1s".data)
  | false :: rest, count, _ => Prefix.countConsecutive rest count false

/-- `Prefix::from_subnet_mask` (prefix.rs, lines 49-78).  The Rust `unwrap`
on octet parsing (modelled with a 0 fallback) is unreachable for masks built
by the validating constructor. -/
def Prefix.from_subnet_mask (mask : List Char) : Except PrefixError Nat :=
  let binary := ((splitChar '.' mask).map (fun o => bits8 ((parseU8 o).getD 0))).flatten
  Prefix.countConsecutive binary 0 true

/-- `Prefix::get_network_mask` (prefix.rs, lines 114-116): `!0u32 << (32-n)`
as a u32. -/
def Prefix.get_network_mask (p : Nat) : Nat := (u32max <<< (32 - p)) % 4294967296

/-- `Prefix::get_host_mask` (prefix.rs, lines 118-120): bitwise complement in
u32, i.e. xor with `!0u32`. -/
def Prefix.get_host_mask (p : Nat) : Nat := u32max ^^^ Prefix.get_network_mask p

/-- `Prefix::get_max_hosts` (prefix.rs, lines 122-128). -/
def Prefix.get_max_hosts (p : Nat) : Nat :=
  if 31 ≤ p then 0 else (1 <<< (32 - p)) - 2

/-! ## network_address.rs -/

/-- Error type of `NetworkAddress` (network_address.rs). -/
inductive NetworkAddressError where
  | invalidOctetCount : Nat → NetworkAddressError
  | invalidOctet : Nat → List Char → NetworkAddressError
  | invalidHostBits : Nat → NetworkAddressError
  | emptyAddress : NetworkAddressError
deriving DecidableEq

/-- The packing loop of `NetworkAddress::try_new`: parses each octet as u8
and ors it into `binary_addr` at `24 - i*8`. -/
def NetworkAddress.packFrom (i : Nat) (acc : Nat) :
    List (List Char) → Except NetworkAddressError Nat
  | [] => Except.ok acc
  | o :: rest =>
    match parseU8 o with
    | some num => NetworkAddress.packFrom (i + 1) (acc ||| num <<< (24 - i * 8)) rest
    | none => Except.error (NetworkAddressError.invalidOctet (i + 1) (invalidReason o))

/-- The expression `(1u32 << (32 - prefix)) - 1` of network_address.rs.  For
`prefix > 32` the u8 subtraction `32 - prefix` underflows, and for
`prefix = 0` the u32 shift by 32 overflows; both are arithmetic panics,
modelled as `none`. -/
def hostBitsMask (prefixLen : Nat) : Option Nat :=
  if 32 < prefixLen then none
  else if prefixLen = 0 then none
  else some ((1 <<< (32 - prefixLen)) - 1)

/-- `NetworkAddress::try_new` (network_address.rs, lines 34-67).  `none`
models the arithmetic panic in the host-bits mask computation. -/
def NetworkAddress.try_new (address : List Char) (prefixLen : Nat) :
    Option (Except NetworkAddressError (List Char)) :=
  if address.isEmpty then some (Except.error NetworkAddressError.emptyAddress)
  else
    let octets := splitChar '.' address
    if octets.length ≠ 4 then
      some (Except.error (NetworkAddressError.invalidOctetCount octets.length))
    else
      match NetworkAddress.packFrom 0 0 octets with
      | Except.error e => some (Except.error e)
      | Except.ok binary_addr =>
        match hostBitsMask prefixLen with
        | none => none
        | some host_bits_mask =>
          if binary_addr &&& host_bits_mask ≠ 0 then
            some (Except.error (NetworkAddressError.invalidHostBits prefixLen))
          else some (Except.ok address)

/-- `NetworkAddress::from_u32` (network_address.rs, lines 86-100): masks the
value down to its network portion (`addr & !host_bits_mask`) and re-validates
through `try_new`. -/
def NetworkAddress.from_u32 (addr : Nat) (prefixLen : Nat) :
    Option (Except NetworkAddressError (List Char)) :=
  match hostBitsMask prefixLen with
  | none => none
  | some host_bits_mask =>
    let network_addr := addr &&& (u32max ^^^ host_bits_mask)
    NetworkAddress.try_new (u32_to_ip_string network_addr) prefixLen

/-! ## lib.rs -/

/-- `IpModel` (lib.rs, lines 12-22).  The `prefix` field is the validated
prefix length. -/
structure IpModel where
  ip : List Char
  prefixLen : Nat
  mask : List Char
  network_address : List Char
  broadcast_address : List Char
  first_host : List Char
  last_host : List Char
  possible_hosts : Option Nat
deriving DecidableEq

/-- `InputIpModel` (lib.rs, lines 23-33): raw unvalidated user strings. -/
structure InputIpModel where
  ip : List Char
  prefixLen : List Char
  mask : List Char
  network_address : List Char
  broadcast_address : List Char
  first_host : List Char
  last_host : List Char
  possible_hosts : Option Nat
deriving DecidableEq

/-- `Validator` (lib.rs, lines 48-56): six independent booleans. -/
structure Validator where
  mask : Bool
  network_address : Bool
  broadcast_address : Bool
  first_host : Bool
  last_host : Bool
  possible_hosts : Bool
deriving DecidableEq

/-- `IpModel::validate` (lib.rs, lines 36-45): exact string equality for the
five address/mask fields, `Option<u32>` equality for the host count. -/
def IpModel.validate (m : IpModel) (other : InputIpModel) : Validator :=
  { mask := m.mask == other.mask
    network_address := m.network_address == other.network_address
    broadcast_address := m.broadcast_address == other.broadcast_address
    first_host := m.first_host == other.first_host
    last_host := m.last_host == other.last_host
    possible_hosts := m.possible_hosts == other.possible_hosts }

/-- `IpCalculator::octets_to_u32` (lib.rs, lines 123-128).  The `% 256` on
each argument models the `u8` argument type. -/
def octets_to_u32 (o0 o1 o2 o3 : Nat) : Nat :=
  (o0 % 256) <<< 24 ||| (o1 % 256) <<< 16 ||| (o2 % 256) <<< 8 ||| (o3 % 256)

/-- Unwrapping of a fallible result that was itself computed under a possible
panic: `none` and `some (error _)` are both panics of the Rust `unwrap`. -/
def unwrapNested : Option (Except ε α) → Option α
  | some (Except.ok a) => some a
  | _ => none

/-- `IpCalculator::calculate_model` (lib.rs, lines 83-121).  `none` models a
panic: an `unwrap` of a failed constructor, or overflow in the
`first_host_value` / `last_host_value` arithmetic (checked arithmetic, as in
a debug build).  The octet arguments are reduced `% 256` as `u8`s. -/
def IpCalculator.calculate_model (o0 o1 o2 o3 subnet_mask : Nat) : Option IpModel :=
  (IpAddress.try_new
      (natRepr (o0 % 256) ++ '.' ::
        (natRepr (o1 % 256) ++ '.' ::
        (natRepr (o2 % 256) ++ '.' :: natRepr (o3 % 256))))).toOption.bind fun ip =>
  (Prefix.new subnet_mask).toOption.bind fun p =>
  let ip_value := octets_to_u32 o0 o1 o2 o3
  let network_mask := Prefix.get_network_mask p
  let host_mask := Prefix.get_host_mask p
  let network_value := ip_value &&& network_mask
  let broadcast_value := network_value ||| host_mask
  (if network_value + 1 < 4294967296 then some (network_value + 1) else none).bind
    fun first_host_value =>
  (if 1 ≤ broadcast_value then some (broadcast_value - 1) else none).bind
    fun last_host_value =>
  (Prefix.toSubnetMask p).bind fun mask =>
  (unwrapNested (NetworkAddress.from_u32 network_value p)).bind fun network_address =>
  (IpAddress.try_new (u32_to_ip_string broadcast_value)).toOption.bind
    fun broadcast_address =>
  (IpAddress.try_new (u32_to_ip_string first_host_value)).toOption.bind
    fun first_host =>
  (IpAddress.try_new (u32_to_ip_string last_host_value)).toOption.bind
    fun last_host =>
  some { ip := ip
         prefixLen := p
         mask := mask
         network_address := network_address
         broadcast_address := broadcast_address
         first_host := first_host
         last_host := last_host
         possible_hosts := some (Prefix.get_max_hosts p) }

/-! ## Splitting lemmas -/

theorem splitChar_of_not_mem {c : Char} {l : List Char} (h : c ∉ l) :
    splitChar c l = [l] := by
  induction l with
  | nil => rfl
  | cons x xs ih =>
    have hx : ¬ (x = c) := fun he => h (he ▸ List.mem_cons_self x xs)
    have hxs : c ∉ xs := fun hm => h (List.mem_cons_of_mem x hm)
    simp only [splitChar, if_neg hx, ih hxs]

theorem splitChar_append {c : Char} {l : List Char} (h : c ∉ l) (rest : List Char) :
    splitChar c (l ++ c :: rest) = l :: splitChar c rest := by
  induction l with
  | nil => simp [splitChar]
  | cons x xs ih =>
    have hx : ¬ (x = c) := fun he => h (he ▸ List.mem_cons_self x xs)
    have hxs : c ∉ xs := fun hm => h (List.mem_cons_of_mem x hm)
    simp only [List.cons_append, splitChar, if_neg hx, List.append_eq, ih hxs]

theorem splitChar_dotted {a b c d : List Char} (ha : '.' ∉ a) (hb : '.' ∉ b)
    (hc : '.' ∉ c) (hd : '.' ∉ d) :
    splitChar '.' (a ++ '.' :: (b ++ '.' :: (c ++ '.' :: d))) = [a, b, c, d] := by
  rw [splitChar_append ha, splitChar_append hb, splitChar_append hc,
    splitChar_of_not_mem hd]

/-! ## Decimal rendering facts for byte values -/

set_option maxRecDepth 100000 in
theorem natRepr_facts : ∀ n, n < 256 → parseU16 (natRepr n) = some n ∧
    parseU8 (natRepr n) = some n ∧ '.' ∉ natRepr n ∧ natRepr n ≠ [] := by decide

theorem parseU16_natRepr {n : Nat} (h : n < 256) : parseU16 (natRepr n) = some n :=
  (natRepr_facts n h).1

theorem parseU8_natRepr {n : Nat} (h : n < 256) : parseU8 (natRepr n) = some n :=
  (natRepr_facts n h).2.1

theorem dot_not_mem_natRepr {n : Nat} (h : n < 256) : '.' ∉ natRepr n :=
  (natRepr_facts n h).2.2.1

theorem natRepr_ne_nil {n : Nat} (h : n < 256) : natRepr n ≠ [] :=
  (natRepr_facts n h).2.2.2

/-! ## u32 bit-arithmetic lemmas -/

theorem and_255_eq_mod (x : Nat) : x &&& 255 = x % 256 := by
  have h := Nat.and_pow_two_sub_one_eq_mod x 8
  norm_num at h
  exact h

theorem byte_eq (v s : Nat) : v >>> s &&& 255 = v / 2 ^ s % 256 := by
  rw [and_255_eq_mod, Nat.shiftRight_eq_div_pow]

theorem testBit_highMask {k : Nat} (hk : k ≤ 32) (i : Nat) :
    (2 ^ 32 - 2 ^ k).testBit i = decide (k ≤ i ∧ i < 32) := by
  have h2k : (1 : Nat) ≤ 2 ^ k := Nat.one_le_pow k 2 (by norm_num)
  have hlt : (2 : Nat) ^ k - 1 < 2 ^ 32 := by
    have hle : (2 : Nat) ^ k ≤ 2 ^ 32 := Nat.pow_le_pow_right (by norm_num) hk
    omega
  have hsucc : (2 : Nat) ^ 32 - 2 ^ k = 2 ^ 32 - (2 ^ k - 1 + 1) := by omega
  rw [hsucc, Nat.testBit_two_pow_sub_succ hlt, Nat.testBit_two_pow_sub_one,
    ← decide_not, ← Bool.decide_and, decide_eq_decide]
  omega

theorem xor_ones_highMask {k : Nat} (hk : k ≤ 32) :
    u32max ^^^ (2 ^ 32 - 2 ^ k) = 2 ^ k - 1 := by
  have hu : u32max = 2 ^ 32 - 1 := by norm_num [u32max]
  apply Nat.eq_of_testBit_eq
  intro i
  rw [Nat.testBit_xor, hu, Nat.testBit_two_pow_sub_one, Nat.testBit_two_pow_sub_one,
    testBit_highMask hk]
  by_cases h1 : i < 32 <;> by_cases h2 : k ≤ i <;> simp [h1, h2] <;> omega

theorem xor_ones_lowMask {k : Nat} (hk : k ≤ 32) :
    u32max ^^^ (2 ^ k - 1) = 2 ^ 32 - 2 ^ k := by
  have hu : u32max = 2 ^ 32 - 1 := by norm_num [u32max]
  apply Nat.eq_of_testBit_eq
  intro i
  rw [Nat.testBit_xor, hu, Nat.testBit_two_pow_sub_one, Nat.testBit_two_pow_sub_one,
    testBit_highMask hk]
  by_cases h1 : i < 32 <;> by_cases h2 : k ≤ i <;> simp [h1, h2] <;> omega

theorem and_highMask {v k : Nat} (hv : v < 2 ^ 32) (hk : k ≤ 32) :
    v &&& (2 ^ 32 - 2 ^ k) = v - v % 2 ^ k := by
  have hsub : v - v % 2 ^ k = (v >>> k) <<< k := by
    have hdm := Nat.div_add_mod v (2 ^ k)
    have hcm : 2 ^ k * (v / 2 ^ k) = v / 2 ^ k * 2 ^ k := Nat.mul_comm _ _
    rw [Nat.shiftRight_eq_div_pow, Nat.shiftLeft_eq]
    omega
  rw [hsub]
  apply Nat.eq_of_testBit_eq
  intro i
  rw [Nat.testBit_and, testBit_highMask hk, Nat.testBit_shiftLeft, Nat.testBit_shiftRight]
  by_cases h2 : k ≤ i
  · by_cases h1 : i < 32
    · have hik : k + (i - k) = i := by omega
      rw [hik]
      simp [h1, h2, Bool.and_comm]
    · have hvi : v.testBit i = false :=
        Nat.testBit_lt_two_pow (lt_of_lt_of_le hv (Nat.pow_le_pow_right (by norm_num) (by omega)))
      have hvik : v.testBit (k + (i - k)) = false :=
        Nat.testBit_lt_two_pow (lt_of_lt_of_le hv (Nat.pow_le_pow_right (by norm_num) (by omega)))
      simp [h1, h2, hvi, hvik]
  · simp [h2]

theorem or_low {x y k : Nat} (hx : x % 2 ^ k = 0) (hy : y < 2 ^ k) :
    x ||| y = x + y := by
  have hdvd : 2 ^ k ∣ x := Nat.dvd_of_mod_eq_zero hx
  have he : 2 ^ k * (x / 2 ^ k) = x := Nat.mul_div_cancel' hdvd
  calc x ||| y = 2 ^ k * (x / 2 ^ k) ||| y := by rw [he]
    _ = 2 ^ k * (x / 2 ^ k) + y := (Nat.mul_add_lt_is_or hy _).symm
    _ = x + y := by rw [he]

theorem network_mask_eq {p : Nat} (hp1 : 1 ≤ p) (hp2 : p ≤ 32) :
    Prefix.get_network_mask p = 2 ^ 32 - 2 ^ (32 - p) := by
  unfold Prefix.get_network_mask
  have hu : u32max = 2 ^ 32 - 1 := by norm_num [u32max]
  have hm : (4294967296 : Nat) = 2 ^ 32 := by norm_num
  set k := 32 - p with hkdef
  have hk : k ≤ 31 := by omega
  have hA1 : (1 : Nat) ≤ 2 ^ k := Nat.one_le_pow k 2 (by norm_num)
  have hAB : (2 : Nat) ^ k ≤ 2 ^ 32 := Nat.pow_le_pow_right (by norm_num) (by omega)
  have hBle : (2 : Nat) ^ 32 ≤ 2 ^ k * 2 ^ 32 := Nat.le_mul_of_pos_left _ (by positivity)
  have he : (2 ^ 32 - 1) * 2 ^ k = (2 ^ 32 - 2 ^ k) + (2 ^ k - 1) * 2 ^ 32 := by
    have h1 : ((2 : Nat) ^ 32 - 1) * 2 ^ k = 2 ^ 32 * 2 ^ k - 2 ^ k := by
      rw [Nat.sub_mul, one_mul]
    have h2 : ((2 : Nat) ^ k - 1) * 2 ^ 32 = 2 ^ k * 2 ^ 32 - 2 ^ 32 := by
      rw [Nat.sub_mul, one_mul]
    have h3 : (2 : Nat) ^ 32 * 2 ^ k = 2 ^ k * 2 ^ 32 := Nat.mul_comm _ _
    omega
  rw [Nat.shiftLeft_eq, hu, hm, he, Nat.add_mul_mod_self_right, Nat.mod_eq_of_lt (by omega)]

theorem host_mask_eq {p : Nat} (hp1 : 1 ≤ p) (hp2 : p ≤ 32) :
    Prefix.get_host_mask p = 2 ^ (32 - p) - 1 := by
  unfold Prefix.get_host_mask
  rw [network_mask_eq hp1 hp2, xor_ones_highMask (by omega)]

theorem octets_to_u32_eq {o0 o1 o2 o3 : Nat} (h0 : o0 < 256) (h1 : o1 < 256)
    (h2 : o2 < 256) (h3 : o3 < 256) :
    octets_to_u32 o0 o1 o2 o3 = o0 * 16777216 + o1 * 65536 + o2 * 256 + o3 := by
  unfold octets_to_u32
  rw [Nat.mod_eq_of_lt h0, Nat.mod_eq_of_lt h1, Nat.mod_eq_of_lt h2, Nat.mod_eq_of_lt h3,
    Nat.shiftLeft_eq, Nat.shiftLeft_eq, Nat.shiftLeft_eq]
  have e24 : (2 : Nat) ^ 24 = 16777216 := by norm_num
  have e16 : (2 : Nat) ^ 16 = 65536 := by norm_num
  have e8 : (2 : Nat) ^ 8 = 256 := by norm_num
  rw [e24, e16, e8]
  have s1 : o0 * 16777216 ||| o1 * 65536 = o0 * 16777216 + o1 * 65536 := by
    have h := @or_low (o0 * 16777216) (o1 * 65536) 24 (by omega) (by omega)
    exact h
  have s2 : o0 * 16777216 + o1 * 65536 ||| o2 * 256 =
      o0 * 16777216 + o1 * 65536 + o2 * 256 := by
    have h := @or_low (o0 * 16777216 + o1 * 65536) (o2 * 256) 16 (by omega) (by omega)
    exact h
  have s3 : o0 * 16777216 + o1 * 65536 + o2 * 256 ||| o3 =
      o0 * 16777216 + o1 * 65536 + o2 * 256 + o3 := by
    have h := @or_low (o0 * 16777216 + o1 * 65536 + o2 * 256) o3 8 (by omega) (by omega)
    exact h
  rw [s1, s2, s3]

/-! ## Constructor success lemmas -/

theorem dotted_ne_nil {a b c d : List Char} (ha : a ≠ []) :
    a ++ '.' :: (b ++ '.' :: (c ++ '.' :: d)) ≠ [] := by
  intro h
  rw [List.append_eq_nil] at h
  exact ha h.1

theorem isEmpty_eq_false_of_ne_nil {l : List Char} (h : l ≠ []) : l.isEmpty = false := by
  cases l with
  | nil => exact absurd rfl h
  | cons x xs => rfl

theorem ip_checkFrom_step {o : List Char} {v i : Nat} {rest : List (List Char)}
    (hp : parseU16 o = some v) (h1 : 1 ≤ v) (h2 : v ≤ 255) :
    IpAddress.checkFrom i (o :: rest) = IpAddress.checkFrom (i + 1) rest := by
  simp only [IpAddress.checkFrom, hp]
  rw [if_neg (by omega)]
  exact if_neg (by omega)

theorem IpAddress.try_new_dotted {a b c d : Nat} (ha : a < 256) (hb : b < 256)
    (hc : c < 256) (hd : d < 256) (h1a : 1 ≤ a) (h1b : 1 ≤ b) (h1c : 1 ≤ c) (h1d : 1 ≤ d) :
    IpAddress.try_new (natRepr a ++ '.' :: (natRepr b ++ '.' :: (natRepr c ++ '.' :: natRepr d))) =
      Except.ok (natRepr a ++ '.' :: (natRepr b ++ '.' :: (natRepr c ++ '.' :: natRepr d))) := by
  have hchk : IpAddress.checkFrom 0 [natRepr a, natRepr b, natRepr c, natRepr d] = none := by
    rw [ip_checkFrom_step (parseU16_natRepr ha) h1a (by omega)]
    rw [ip_checkFrom_step (parseU16_natRepr hb) h1b (by omega)]
    rw [ip_checkFrom_step (parseU16_natRepr hc) h1c (by omega)]
    rw [ip_checkFrom_step (parseU16_natRepr hd) h1d (by omega)]
    rfl
  unfold IpAddress.try_new
  rw [isEmpty_eq_false_of_ne_nil (dotted_ne_nil (natRepr_ne_nil ha))]
  rw [splitChar_dotted (dot_not_mem_natRepr ha) (dot_not_mem_natRepr hb)
    (dot_not_mem_natRepr hc) (dot_not_mem_natRepr hd)]
  simp [hchk]

theorem u32_to_ip_string_eq (v : Nat) :
    u32_to_ip_string v =
      natRepr (v / 16777216 % 256) ++ '.' :: (natRepr (v / 65536 % 256) ++ '.' ::
        (natRepr (v / 256 % 256) ++ '.' :: natRepr (v % 256))) := by
  unfold u32_to_ip_string
  rw [byte_eq, byte_eq, byte_eq, and_255_eq_mod]
  norm_num

theorem ip_try_new_u32 {v : Nat} (h0 : 1 ≤ v / 16777216 % 256)
    (h1 : 1 ≤ v / 65536 % 256) (h2 : 1 ≤ v / 256 % 256) (h3 : 1 ≤ v % 256) :
    IpAddress.try_new (u32_to_ip_string v) = Except.ok (u32_to_ip_string v) := by
  rw [u32_to_ip_string_eq]
  exact IpAddress.try_new_dotted (Nat.mod_lt _ (by norm_num)) (Nat.mod_lt _ (by norm_num))
    (Nat.mod_lt _ (by norm_num)) (Nat.mod_lt _ (by norm_num)) h0 h1 h2 h3

theorem hostBitsMask_some {p : Nat} (hp1 : 1 ≤ p) (hp2 : p ≤ 32) :
    hostBitsMask p = some (2 ^ (32 - p) - 1) := by
  unfold hostBitsMask
  rw [if_neg (by omega), if_neg (by omega), Nat.one_shiftLeft]

theorem hostBitsMask_none {p : Nat} (hp : p = 0 ∨ 32 < p) : hostBitsMask p = none := by
  unfold hostBitsMask
  rcases hp with h | h
  · rw [h]
    simp
  · rw [if_pos h]

theorem NetworkAddress.packFrom_dotted {a b c d : Nat} (ha : a < 256) (hb : b < 256)
    (hc : c < 256) (hd : d < 256) :
    NetworkAddress.packFrom 0 0 [natRepr a, natRepr b, natRepr c, natRepr d] =
      Except.ok (a * 16777216 + b * 65536 + c * 256 + d) := by
  simp only [NetworkAddress.packFrom, parseU8_natRepr ha, parseU8_natRepr hb,
    parseU8_natRepr hc, parseU8_natRepr hd]
  norm_num [Nat.shiftLeft_eq]
  have s1 : a * 16777216 ||| b * 65536 = a * 16777216 + b * 65536 :=
    @or_low (a * 16777216) (b * 65536) 24 (by omega) (by omega)
  have s2 : a * 16777216 + b * 65536 ||| c * 256 = a * 16777216 + b * 65536 + c * 256 :=
    @or_low (a * 16777216 + b * 65536) (c * 256) 16 (by omega) (by omega)
  have s3 : a * 16777216 + b * 65536 + c * 256 ||| d =
      a * 16777216 + b * 65536 + c * 256 + d :=
    @or_low (a * 16777216 + b * 65536 + c * 256) d 8 (by omega) (by omega)
  rw [s1, s2, s3]

theorem na_try_new_u32 {v p : Nat} (hv : v < 4294967296) (hp1 : 1 ≤ p)
    (hp2 : p ≤ 32) (hz : v % 2 ^ (32 - p) = 0) :
    NetworkAddress.try_new (u32_to_ip_string v) p = some (Except.ok (u32_to_ip_string v)) := by
  have hb0 : v / 16777216 % 256 < 256 := Nat.mod_lt _ (by norm_num)
  have hb1 : v / 65536 % 256 < 256 := Nat.mod_lt _ (by norm_num)
  have hb2 : v / 256 % 256 < 256 := Nat.mod_lt _ (by norm_num)
  have hb3 : v % 256 < 256 := Nat.mod_lt _ (by norm_num)
  have hd1 : v / 256 / 256 = v / 65536 := by
    rw [Nat.div_div_eq_div_mul]
  have hd2 : v / 65536 / 256 = v / 16777216 := by
    rw [Nat.div_div_eq_div_mul]
  have hrec : v / 16777216 % 256 * 16777216 + v / 65536 % 256 * 65536 +
      v / 256 % 256 * 256 + v % 256 = v := by omega
  unfold NetworkAddress.try_new
  rw [u32_to_ip_string_eq]
  rw [isEmpty_eq_false_of_ne_nil (dotted_ne_nil (natRepr_ne_nil hb0))]
  rw [splitChar_dotted (dot_not_mem_natRepr hb0) (dot_not_mem_natRepr hb1)
    (dot_not_mem_natRepr hb2) (dot_not_mem_natRepr hb3)]
  simp [NetworkAddress.packFrom_dotted hb0 hb1 hb2 hb3, hrec, hostBitsMask_some hp1 hp2,
    Nat.and_pow_two_sub_one_eq_mod, hz]

theorem NetworkAddress.from_u32_ok {v p : Nat} (hv : v < 4294967296) (hp1 : 1 ≤ p)
    (hp2 : p ≤ 32) :
    NetworkAddress.from_u32 v p =
      some (Except.ok (u32_to_ip_string (v - v % 2 ^ (32 - p)))) := by
  unfold NetworkAddress.from_u32
  rw [hostBitsMask_some hp1 hp2]
  have hxor : u32max ^^^ (2 ^ (32 - p) - 1) = 2 ^ 32 - 2 ^ (32 - p) :=
    xor_ones_lowMask (by omega)
  have hand : v &&& (2 ^ 32 - 2 ^ (32 - p)) = v - v % 2 ^ (32 - p) :=
    and_highMask (by omega) (by omega)
  simp only [hxor, hand]
  have hmod : (v - v % 2 ^ (32 - p)) % 2 ^ (32 - p) = 0 := by
    have hdm := Nat.div_add_mod v (2 ^ (32 - p))
    have : v - v % 2 ^ (32 - p) = 2 ^ (32 - p) * (v / 2 ^ (32 - p)) := by omega
    rw [this, Nat.mul_mod_right]
  exact na_try_new_u32 (by omega) hp1 hp2 hmod

/-! ## calculate_model success -/

theorem except_toOption_ok {ε α : Type} (a : α) :
    (Except.ok a : Except ε α).toOption = some a := rfl

theorem Prefix.new_ok {p : Nat} (hp1 : 1 ≤ p) (hp2 : p ≤ 32) :
    Prefix.new p = Except.ok p := by
  unfold Prefix.new
  rw [if_neg (by omega)]

set_option maxRecDepth 1000000 in
theorem toSubnetMask_isSome : ∀ p, p < 33 → 1 ≤ p → (Prefix.toSubnetMask p).isSome = true := by
  decide

theorem calculate_model_ok (o0 o1 o2 o3 p net : Nat)
    (hok : (1 ≤ o0 ∧ o0 ≤ 255) ∧ (1 ≤ o1 ∧ o1 ≤ 255) ∧ (1 ≤ o2 ∧ o2 ≤ 255) ∧
      (1 ≤ o3 ∧ o3 ≤ 255) ∧ 1 ≤ p ∧ p ≤ 32)
    (hnet : net = (o0 * 16777216 + o1 * 65536 + o2 * 256 + o3) -
      (o0 * 16777216 + o1 * 65536 + o2 * 256 + o3) % 2 ^ (32 - p))
    (hbytes : net + 1 < 4294967296 ∧
      (1 ≤ (net + 1) / 16777216 % 256 ∧ 1 ≤ (net + 1) / 65536 % 256 ∧
        1 ≤ (net + 1) / 256 % 256 ∧ 1 ≤ (net + 1) % 256) ∧
      (1 ≤ (net + (2 ^ (32 - p) - 1)) / 16777216 % 256 ∧
        1 ≤ (net + (2 ^ (32 - p) - 1)) / 65536 % 256 ∧
        1 ≤ (net + (2 ^ (32 - p) - 1)) / 256 % 256 ∧
        1 ≤ (net + (2 ^ (32 - p) - 1)) % 256) ∧
      (1 ≤ (net + (2 ^ (32 - p) - 1) - 1) / 16777216 % 256 ∧
        1 ≤ (net + (2 ^ (32 - p) - 1) - 1) / 65536 % 256 ∧
        1 ≤ (net + (2 ^ (32 - p) - 1) - 1) / 256 % 256 ∧
        1 ≤ (net + (2 ^ (32 - p) - 1) - 1) % 256)) :
    (IpCalculator.calculate_model o0 o1 o2 o3 p).isSome = true := by
  obtain ⟨⟨hO0, hO0'⟩, ⟨hO1, hO1'⟩, ⟨hO2, hO2'⟩, ⟨hO3, hO3'⟩, hp1, hp2⟩ := hok
  obtain ⟨hov, ⟨hf0, hf1, hf2, hf3⟩, ⟨hb0, hb1, hb2, hb3⟩, hl0, hl1, hl2, hl3⟩ := hbytes
  have hnetmod : net % 2 ^ (32 - p) = 0 := by
    have hdm := Nat.div_add_mod (o0 * 16777216 + o1 * 65536 + o2 * 256 + o3) (2 ^ (32 - p))
    have h2 : net = 2 ^ (32 - p) *
        ((o0 * 16777216 + o1 * 65536 + o2 * 256 + o3) / 2 ^ (32 - p)) := by omega
    rw [h2, Nat.mul_mod_right]
  obtain ⟨mk, hmk⟩ := Option.isSome_iff_exists.mp (toSubnetMask_isSome p (by omega) hp1)
  have hna : unwrapNested (NetworkAddress.from_u32 net p) = some (u32_to_ip_string net) := by
    rw [NetworkAddress.from_u32_ok (show net < 4294967296 by omega) hp1 hp2, hnetmod,
      Nat.sub_zero]
    rfl
  have hip := IpAddress.try_new_dotted (show o0 < 256 by omega) (show o1 < 256 by omega)
    (show o2 < 256 by omega) (show o3 < 256 by omega) hO0 hO1 hO2 hO3
  have hba := ip_try_new_u32 hb0 hb1 hb2 hb3
  have hfh := ip_try_new_u32 hf0 hf1 hf2 hf3
  have hlh := ip_try_new_u32 hl0 hl1 hl2 hl3
  have hbc1 : 1 ≤ net + (2 ^ (32 - p) - 1) := by omega
  have hor : net ||| (2 ^ (32 - p) - 1) = net + (2 ^ (32 - p) - 1) :=
    or_low hnetmod (by have := Nat.one_le_pow (32 - p) 2 (by norm_num); omega)
  have hfg : (if net + 1 < 4294967296 then some (net + 1) else none) = some (net + 1) :=
    if_pos hov
  have hlg : (if 1 ≤ net + (2 ^ (32 - p) - 1) then
      some (net + (2 ^ (32 - p) - 1) - 1) else none) = some (net + (2 ^ (32 - p) - 1) - 1) :=
    if_pos hbc1
  unfold IpCalculator.calculate_model
  simp only [Nat.mod_eq_of_lt (show o0 < 256 by omega), Nat.mod_eq_of_lt (show o1 < 256 by omega),
    Nat.mod_eq_of_lt (show o2 < 256 by omega), Nat.mod_eq_of_lt (show o3 < 256 by omega)]
  simp only [hip, except_toOption_ok, Prefix.new_ok hp1 hp2, Option.some_bind,
    octets_to_u32_eq (show o0 < 256 by omega) (show o1 < 256 by omega)
      (show o2 < 256 by omega) (show o3 < 256 by omega),
    network_mask_eq hp1 hp2, host_mask_eq hp1 hp2,
    and_highMask (show o0 * 16777216 + o1 * 65536 + o2 * 256 + o3 < 2 ^ 32 by omega)
      (show 32 - p ≤ 32 by omega),
    ← hnet, hor, hfg, hlg, hmk, hna, hba, hfh, hlh, Option.isSome_some]

/-! ## Claim C1 -/

/-- Claim C1 (counterexample): the claim that `calculate_model` never fails
internally for any octet array and any prefix_len in [1,32] is false: for
octets 1.1.1.1 and prefix 8 the derived first-host string is `1.0.0.1`,
whose zero octet is rejected by the `IpAddress` constructor, so the inner
`unwrap` panics (modelled as `none`). -/
theorem C1_counterexample : IpCalculator.calculate_model 1 1 1 1 8 = none := by decide

/-- Claim C1 (amended): `calculate_model` is a deterministic pure function
whose internal field constructors all succeed — so no internal unwrap can
fail — provided every input octet lies in [1,255] and the prefix length lies
in [24,30]; outside that range a derived broadcast/first-host/last-host
string can contain a zero octet, which the `IpAddress` constructor
rejects. -/
theorem C1_theorem (o0 o1 o2 o3 p : Nat)
    (hO0 : 1 ≤ o0) (hO0' : o0 ≤ 255) (hO1 : 1 ≤ o1) (hO1' : o1 ≤ 255)
    (hO2 : 1 ≤ o2) (hO2' : o2 ≤ 255) (hO3 : 1 ≤ o3) (hO3' : o3 ≤ 255)
    (hp1 : 24 ≤ p) (hp2 : p ≤ 30) :
    (IpCalculator.calculate_model o0 o1 o2 o3 p).isSome = true := by
  interval_cases p <;>
    exact calculate_model_ok _ _ _ _ _ _ (by omega) rfl (by omega)

/-- Witness for C1: the amended theorem applied at 192.168.1.1/24. -/
theorem C1_witness : (IpCalculator.calculate_model 192 168 1 1 24).isSome = true := by
  apply C1_theorem 192 168 1 1 24 <;> norm_num

/-! ## Claim C10 -/

/-- Claim C10: for every octet array with each octet in [111,254] and every
prefix_len in [18,27] — exactly the ranges `random_model` draws from —
`calculate_model` returns a model with no internal constructor failure, so
`random_model` never panics. -/
theorem C10_theorem (o0 o1 o2 o3 p : Nat)
    (hO0 : 111 ≤ o0) (hO0' : o0 ≤ 254) (hO1 : 111 ≤ o1) (hO1' : o1 ≤ 254)
    (hO2 : 111 ≤ o2) (hO2' : o2 ≤ 254) (hO3 : 111 ≤ o3) (hO3' : o3 ≤ 254)
    (hp1 : 18 ≤ p) (hp2 : p ≤ 27) :
    (IpCalculator.calculate_model o0 o1 o2 o3 p).isSome = true := by
  interval_cases p <;>
    exact calculate_model_ok _ _ _ _ _ _ (by omega) rfl (by omega)

/-- Witness for C10: the theorem applied at 111.111.111.111/18. -/
theorem C10_witness : (IpCalculator.calculate_model 111 111 111 111 18).isSome = true := by
  apply C10_theorem 111 111 111 111 18 <;> norm_num

/-! ## Claim C2 -/

/-- Claim C2 (counterexample): the claim that every mask accepted by
`SubnetMask::try_new` represents a contiguous top-aligned bitmask and
round-trips through `Prefix` is false: `255.192.192.0` has non-increasing
octets from the valid value set, so `try_new` accepts it, but its bit
pattern is not contiguous — its popcount is 12 and the prefix-12 mask
renders as `255.240.0.0`, not the original string. -/
theorem C2_counterexample :
    SubnetMask.try_new "255.192.192.0".data = Except.ok "255.192.192.0".data ∧
    SubnetMask.toPrefix "255.192.192.0".data = 12 ∧
    octets_to_u32 255 192 192 0 ≠ Prefix.get_network_mask 12 ∧
    Prefix.toSubnetMask (SubnetMask.toPrefix "255.192.192.0".data) =
      some "255.240.0.0".data ∧
    "255.240.0.0".data ≠ "255.192.192.0".data := by
  refine ⟨by decide, by decide, by decide, by decide, by decide⟩

set_option maxRecDepth 1000000 in
/-- Claim C2 (amended): a dotted mask whose four fields are the canonical
decimals of values from the valid octet set, in which every field following
a field other than 255 is 0 (contiguity across octet boundaries) and the
first field is nonzero, is accepted by `SubnetMask::try_new`, packs to the
contiguous top-aligned bitmask of its popcount, and round-trips:
`Prefix::new(m.to_prefix()).to_subnet_mask()` returns the original string.
Masks accepted by the constructor that violate these side conditions (e.g.
`255.192.192.0`, or non-canonical spellings such as `255.255.255.000`) need
not round-trip. -/
theorem C2_theorem : ∀ a ∈ validValues, ∀ b ∈ validValues, ∀ c ∈ validValues,
    ∀ d ∈ validValues,
    (a ≠ 255 → b = 0) → (b ≠ 255 → c = 0) → (c ≠ 255 → d = 0) → 1 ≤ a →
    (SubnetMask.try_new (natRepr a ++ '.' :: (natRepr b ++ '.' :: (natRepr c ++ '.' :: natRepr d))) =
      Except.ok (natRepr a ++ '.' :: (natRepr b ++ '.' :: (natRepr c ++ '.' :: natRepr d)))) ∧
    octets_to_u32 a b c d = Prefix.get_network_mask
      (SubnetMask.toPrefix (natRepr a ++ '.' :: (natRepr b ++ '.' :: (natRepr c ++ '.' :: natRepr d)))) ∧
    Prefix.toSubnetMask
      (SubnetMask.toPrefix (natRepr a ++ '.' :: (natRepr b ++ '.' :: (natRepr c ++ '.' :: natRepr d)))) =
      some (natRepr a ++ '.' :: (natRepr b ++ '.' :: (natRepr c ++ '.' :: natRepr d))) := by
  decide

/-- Witness for C2: the amended theorem applied to 255.255.255.0. -/
theorem C2_witness :
    (SubnetMask.try_new (natRepr 255 ++ '.' :: (natRepr 255 ++ '.' :: (natRepr 255 ++ '.' :: natRepr 0))) =
      Except.ok (natRepr 255 ++ '.' :: (natRepr 255 ++ '.' :: (natRepr 255 ++ '.' :: natRepr 0)))) ∧
    octets_to_u32 255 255 255 0 = Prefix.get_network_mask
      (SubnetMask.toPrefix (natRepr 255 ++ '.' :: (natRepr 255 ++ '.' :: (natRepr 255 ++ '.' :: natRepr 0)))) ∧
    Prefix.toSubnetMask
      (SubnetMask.toPrefix (natRepr 255 ++ '.' :: (natRepr 255 ++ '.' :: (natRepr 255 ++ '.' :: natRepr 0)))) =
      some (natRepr 255 ++ '.' :: (natRepr 255 ++ '.' :: (natRepr 255 ++ '.' :: natRepr 0))) :=
  C2_theorem 255 (by decide) 255 (by decide) 255 (by decide) 0 (by decide)
    (by decide) (by decide) (by decide) (by decide)

/-! ## Claim C3 -/

set_option maxRecDepth 1000000 in
/-- Claim C3: for every prefix length n in [1,32], `Prefix::from_subnet_mask`
applied to `Prefix::new(n).to_subnet_mask()` succeeds and returns a prefix
whose value equals n (prefix-to-mask-to-prefix round trip). -/
theorem C3_theorem : ∀ n, n < 33 → 1 ≤ n →
    (Prefix.toSubnetMask n).map (fun mk => Prefix.from_subnet_mask mk) =
      some (Except.ok n) := by
  decide

/-- Witness for C3: the round trip at n = 24. -/
theorem C3_witness :
    (Prefix.toSubnetMask 24).map (fun mk => Prefix.from_subnet_mask mk) =
      some (Except.ok 24) :=
  C3_theorem 24 (by decide) (by decide)

/-! ## Claim C4 -/

theorem Prefix.new_toOption_eq {p q : Nat} (h : (Prefix.new p).toOption = some q) : q = p := by
  unfold Prefix.new at h
  by_cases hc : p < 1 ∨ 32 < p
  · rw [if_pos hc] at h
    simp [Except.toOption] at h
  · rw [if_neg hc] at h
    simp [Except.toOption] at h
    exact h.symm

/-- Claim C4: for every valid prefix n, `Prefix::get_max_hosts` returns 0
when n ≥ 31 and `2^(32-n) - 2` when n < 31, and any model produced by
`calculate_model` carries `possible_hosts = Some` of that value. -/
theorem C4_theorem :
    (∀ p, 1 ≤ p → p ≤ 32 →
      Prefix.get_max_hosts p = if 31 ≤ p then 0 else 2 ^ (32 - p) - 2) ∧
    (∀ o0 o1 o2 o3 p m, IpCalculator.calculate_model o0 o1 o2 o3 p = some m →
      m.possible_hosts = some (Prefix.get_max_hosts p)) := by
  constructor
  · intro p hp1 hp2
    by_cases h : 31 ≤ p <;> simp [Prefix.get_max_hosts, h, Nat.one_shiftLeft]
  · intro o0 o1 o2 o3 p m h
    simp only [IpCalculator.calculate_model, Option.bind_eq_some] at h
    obtain ⟨ip, hip, q, hq, fhv, hfv, lhv, hlv, mk, hmk, na, hna, ba, hba, fh, hfh,
      lh, hlh, hm⟩ := h
    obtain rfl := Prefix.new_toOption_eq hq
    obtain rfl := Option.some.inj hm
    rfl

/-- Witness for C4: at prefix 24 with address 192.168.1.1 the host count is
`2^8 - 2 = 254`. -/
theorem C4_witness :
    Prefix.get_max_hosts 24 = (if 31 ≤ 24 then 0 else 2 ^ (32 - 24) - 2) ∧
    (IpCalculator.calculate_model 192 168 1 1 24).map IpModel.possible_hosts =
      some (some (Prefix.get_max_hosts 24)) := by
  constructor
  · exact C4_theorem.1 24 (by norm_num) (by norm_num)
  · obtain ⟨m, hm⟩ := Option.isSome_iff_exists.mp
      (show (IpCalculator.calculate_model 192 168 1 1 24).isSome = true by decide)
    rw [hm]
    simp [C4_theorem.2 192 168 1 1 24 m hm]

/-! ## Claim C5 -/

/-- Claim C5: for every 32-bit value and every valid prefix in [1,32],
`NetworkAddress::from_u32` returns Ok: the masking of the value down to its
network portion guarantees the host bits are zero, so the re-validation via
`try_new` cannot fail. -/
theorem C5_theorem (v p : Nat) (hv : v < 4294967296) (hp1 : 1 ≤ p) (hp2 : p ≤ 32) :
    NetworkAddress.from_u32 v p =
      some (Except.ok (u32_to_ip_string (v - v % 2 ^ (32 - p)))) :=
  NetworkAddress.from_u32_ok hv hp1 hp2

/-- Witness for C5: `from_u32(0xC0A80100, 24)` succeeds. -/
theorem C5_witness :
    NetworkAddress.from_u32 3232235776 24 =
      some (Except.ok (u32_to_ip_string (3232235776 - 3232235776 % 2 ^ (32 - 24)))) :=
  C5_theorem 3232235776 24 (by norm_num) (by norm_num) (by norm_num)

/-! ## Claim C7 -/

/-- Claim C7: `validate` returns six independent booleans; each address/mask
field is true exactly when the derived field's string equals the candidate's
raw string character for character, and `possible_hosts` is true exactly
when the two optional counts are equal (None matches only None). -/
theorem C7_theorem (m : IpModel) (i : InputIpModel) :
    ((m.validate i).mask = true ↔ m.mask = i.mask) ∧
    ((m.validate i).network_address = true ↔ m.network_address = i.network_address) ∧
    ((m.validate i).broadcast_address = true ↔ m.broadcast_address = i.broadcast_address) ∧
    ((m.validate i).first_host = true ↔ m.first_host = i.first_host) ∧
    ((m.validate i).last_host = true ↔ m.last_host = i.last_host) ∧
    ((m.validate i).possible_hosts = true ↔ m.possible_hosts = i.possible_hosts) := by
  simp [IpModel.validate]

/-! ## Claim C9 -/

theorem NetworkAddress.packFrom_isOk (i acc : Nat) (l : List (List Char))
    (h : ∀ o ∈ l, (parseU8 o).isSome) :
    ∃ n, NetworkAddress.packFrom i acc l = Except.ok n := by
  induction l generalizing i acc with
  | nil => exact ⟨acc, rfl⟩
  | cons o rest ih =>
    obtain ⟨v, hv⟩ := Option.isSome_iff_exists.mp (h o (List.mem_cons_self o rest))
    simp only [NetworkAddress.packFrom, hv]
    exact ih _ _ (fun x hx => h x (List.mem_cons_of_mem _ hx))

theorem isSome_ite_some {α : Type} (c : Prop) [Decidable c] (x y : α) :
    (if c then some x else some y).isSome = true := by split <;> rfl

theorem NetworkAddress.try_new_isSome (s : List Char) (p : Nat) (hp1 : 1 ≤ p)
    (hp2 : p ≤ 32) : (NetworkAddress.try_new s p).isSome = true := by
  unfold NetworkAddress.try_new
  by_cases he : s.isEmpty = true
  · simp [he]
  · simp only [Bool.not_eq_true] at he
    by_cases h4 : (splitChar '.' s).length = 4
    · cases hpk : NetworkAddress.packFrom 0 0 (splitChar '.' s) with
      | error e => simp [he, h4, hpk]
      | ok n => simp [he, h4, hpk, hostBitsMask_some hp1 hp2, isSome_ite_some]
    · simp [he, h4]

/-- Claim C9: `NetworkAddress::try_new` and `NetworkAddress::from_u32` are
total only for prefix in [1,32]: the host-bit mask
`(1u32 << (32 - prefix)) - 1` has no range check, so prefix 0 overflows the
shift and prefix above 32 underflows the subtraction; both panic (modelled
`none`) instead of returning an error, while structurally valid inputs with
prefix in [1,32] never panic. -/
theorem C9_theorem :
    (∀ v p, (p = 0 ∨ 32 < p) → NetworkAddress.from_u32 v p = none) ∧
    (∀ s p, (splitChar '.' s).length = 4 → (∀ o ∈ splitChar '.' s, (parseU8 o).isSome) →
      (p = 0 ∨ 32 < p) → NetworkAddress.try_new s p = none) ∧
    (∀ v p, 1 ≤ p → p ≤ 32 → (NetworkAddress.from_u32 v p).isSome = true) ∧
    (∀ s p, 1 ≤ p → p ≤ 32 → (NetworkAddress.try_new s p).isSome = true) := by
  refine ⟨?_, ?_, ?_, ?_⟩
  · intro v p hp
    unfold NetworkAddress.from_u32
    rw [hostBitsMask_none hp]
  · intro s p h4 hp hbad
    have hne : s ≠ [] := by
      intro he
      rw [he] at h4
      simp [splitChar] at h4
    obtain ⟨n, hn⟩ := NetworkAddress.packFrom_isOk 0 0 _ hp
    unfold NetworkAddress.try_new
    rw [isEmpty_eq_false_of_ne_nil hne]
    simp [h4, hn, hostBitsMask_none hbad]
  · intro v p hp1 hp2
    unfold NetworkAddress.from_u32
    rw [hostBitsMask_some hp1 hp2]
    exact NetworkAddress.try_new_isSome _ p hp1 hp2
  · intro s p hp1 hp2
    exact NetworkAddress.try_new_isSome s p hp1 hp2

/-- Witness for C9: prefix 0 and prefix 33 panic, prefix 24 does not. -/
theorem C9_witness :
    NetworkAddress.from_u32 3232235777 0 = none ∧
    NetworkAddress.try_new "192.168.1.0".data 33 = none ∧
    (NetworkAddress.from_u32 3232235777 24).isSome = true ∧
    (NetworkAddress.try_new "192.168.1.0".data 24).isSome = true :=
  ⟨C9_theorem.1 3232235777 0 (Or.inl rfl),
   C9_theorem.2.1 "192.168.1.0".data 33 (by decide) (by decide) (Or.inr (by norm_num)),
   C9_theorem.2.2.1 3232235777 24 (by norm_num) (by norm_num),
   C9_theorem.2.2.2 "192.168.1.0".data 24 (by norm_num) (by norm_num)⟩

/-! ## Claim C6 -/

/-- A parsed octet value outside the accepted range [1,255]. -/
def badOctet (v : Nat) : Bool := decide (v < 1) || decide (255 < v)

theorem ip_checkFrom_eq (i : Nat) (l : List (List Char))
    (h : ∀ o ∈ l, (parseU16 o).isSome = true) :
    IpAddress.checkFrom i l =
      if (l.map (fun o => (parseU16 o).getD 0)).any badOctet then
        some (IpAddressError.octetOutOfRange
          (i + (l.map (fun o => (parseU16 o).getD 0)).findIdx badOctet + 1))
      else none := by
  induction l generalizing i with
  | nil => simp [IpAddress.checkFrom]
  | cons o rest ih =>
    obtain ⟨v, hv⟩ := Option.isSome_iff_exists.mp (h o (List.mem_cons_self o rest))
    simp only [IpAddress.checkFrom, hv, List.map_cons, Option.getD_some]
    by_cases hb255 : 255 < v
    · have hbv : badOctet v = true := by simp [badOctet, hb255]
      rw [if_pos hb255]
      simp [hbv, List.findIdx_cons]
    · rw [if_neg hb255]
      by_cases hb1 : v < 1
      · have hbv : badOctet v = true := by simp [badOctet, hb1]
        rw [if_pos hb1]
        simp [hbv, List.findIdx_cons]
      · have hbv : badOctet v = false := by
          simp only [badOctet, Bool.or_eq_false_iff, decide_eq_false_iff_not]
          omega
        rw [if_neg hb1, ih _ (fun x hx => h x (List.mem_cons_of_mem _ hx))]
        simp only [List.any_cons, hbv, Bool.false_or, List.findIdx_cons, cond_false]
        by_cases ha : (rest.map fun o => (parseU16 o).getD 0).any badOctet = true
        · rw [if_pos ha, if_pos ha]
          simp only [Option.some.injEq, IpAddressError.octetOutOfRange.injEq]
          omega
        · rw [if_neg ha, if_neg ha]

/-- Claim C6: for every input whose four dot-separated fields all parse as
16-bit unsigned integers, `IpAddress` parsing fails with
`OctetOutOfRange{position}` — position the 1-based index of the first
offending field — exactly when some field's value lies outside [1,255]
(in particular a zero field is rejected); otherwise it succeeds. -/
theorem C6_theorem (s : List Char) (h4 : (splitChar '.' s).length = 4)
    (hp : ∀ o ∈ splitChar '.' s, (parseU16 o).isSome = true) :
    IpAddress.try_new s =
      if ((splitChar '.' s).map (fun o => (parseU16 o).getD 0)).any badOctet then
        Except.error (IpAddressError.octetOutOfRange
          (((splitChar '.' s).map (fun o => (parseU16 o).getD 0)).findIdx badOctet + 1))
      else Except.ok s := by
  have hne : s ≠ [] := by
    intro he
    rw [he] at h4
    simp [splitChar] at h4
  unfold IpAddress.try_new
  rw [isEmpty_eq_false_of_ne_nil hne]
  by_cases ha : ((splitChar '.' s).map (fun o => (parseU16 o).getD 0)).any badOctet = true
  · simp [h4, ip_checkFrom_eq 0 _ hp, ha]
  · simp [h4, ip_checkFrom_eq 0 _ hp, ha]

/-- Witness for C6: `192.168.0.1` fails with OctetOutOfRange at position 3
because its third field is 0. -/
theorem C6_witness :
    IpAddress.try_new "192.168.0.1".data =
      Except.error (IpAddressError.octetOutOfRange 3) := by
  have h := C6_theorem ("192.168.0.1".data) (by decide) (by decide)
  rw [h]
  decide

/-! ## Claim C8 -/

/-- Some element of the list exceeds its predecessor (the first element's
predecessor being the given starting value). -/
def hasIncrease : Nat → List Nat → Bool
  | _, [] => false
  | prev, v :: rest => decide (prev < v) || hasIncrease v rest

theorem mask_checkFrom_eq (i prev : Nat) (l : List (List Char))
    (h : ∀ o ∈ l, (parseU8 o).isSome = true ∧ (parseU8 o).getD 0 ∈ validValues) :
    SubnetMask.checkFrom i prev l =
      if hasIncrease prev (l.map fun o => (parseU8 o).getD 0) then
        some SubnetMaskError.invalidMaskPattern
      else none := by
  induction l generalizing i prev with
  | nil => simp [SubnetMask.checkFrom, hasIncrease]
  | cons o rest ih =>
    obtain ⟨hs, hm⟩ := h o (List.mem_cons_self o rest)
    obtain ⟨v, hv⟩ := Option.isSome_iff_exists.mp hs
    rw [hv, Option.getD_some] at hm
    simp only [SubnetMask.checkFrom, hv, List.map_cons, Option.getD_some, hasIncrease]
    rw [if_neg (by simp [hm])]
    by_cases hlt : prev < v
    · rw [if_pos hlt]
      simp [hlt]
    · rw [if_neg hlt, ih _ _ (fun x hx => h x (List.mem_cons_of_mem _ hx))]
      simp [hlt]

/-- Claim C8: for every input whose four dot-separated fields all parse as
8-bit values drawn from the valid mask octet set,
`SubnetMask::try_new` fails with `InvalidMaskPattern` exactly when some
field's numeric value exceeds the previous field's value (the first field's
previous value being 255); otherwise it succeeds. -/
theorem C8_theorem (s : List Char) (h4 : (splitChar '.' s).length = 4)
    (h : ∀ o ∈ splitChar '.' s, (parseU8 o).isSome = true ∧
      (parseU8 o).getD 0 ∈ validValues) :
    SubnetMask.try_new s =
      if hasIncrease 255 ((splitChar '.' s).map fun o => (parseU8 o).getD 0) then
        Except.error SubnetMaskError.invalidMaskPattern
      else Except.ok s := by
  have hne : s ≠ [] := by
    intro he
    rw [he] at h4
    simp [splitChar] at h4
  unfold SubnetMask.try_new
  rw [isEmpty_eq_false_of_ne_nil hne]
  by_cases ha : hasIncrease 255 ((splitChar '.' s).map fun o => (parseU8 o).getD 0) = true
  · simp [h4, mask_checkFrom_eq 0 255 _ h, ha]
  · simp [h4, mask_checkFrom_eq 0 255 _ h, ha]

/-- Witness for C8: `255.0.255.0` fails with InvalidMaskPattern (255 follows
0 at position 3). -/
theorem C8_witness :
    SubnetMask.try_new "255.0.255.0".data =
      Except.error SubnetMaskError.invalidMaskPattern := by
  have h := C8_theorem ("255.0.255.0".data) (by decide) (by decide)
  rw [h]
  decide

end IpChecker
